import Mathlib

/-!
Verification of the Discord-Github-Bridge synchronization engine.

The definitions below are a shallow embedding of the bridge's latest
generation of sync/search/cache logic:

* `getSyncedIssueInfo` and its per-message matchers embed the Identity
  Resolver of `src/utils.js` (`getSyncedIssueInfo`, lines 472-522): two
  backward-compatible pinned-message formats recognised by JavaScript
  regular expressions, which are reproduced here as explicit leftmost-match
  backtracking matchers over character lists.
* `findThreadsForIssue`, `fullSearch`, `fetchArchivedLoop`,
  `preFilterCandidates`, `sortByCmp`/`threadCmp` and the cache operations
  embed the Thread Locator of `src/utils.js` (lines 327-396 and 698-941).
  External I/O (channel fetches, archived-page fetches, pinned-message
  fetches) is modelled by a `SearchWorld` record supplying the responses;
  a failed or timed-out remote call is a `none` response.
* `handleIssueOpened` embeds the issue-opened webhook handler
  (`payloadProcessor`, lines 669-713): thread creation is modelled as
  appending the created thread's title to the world, which is all the
  idempotence claim observes.
* `addTagRespectingLimit` embeds the per-thread tag-add discipline shared
  by `handleIssueLabeled` (lines 884-951) and `handleIssueClosed`
  (lines 715-780).
-/

/-- The sync marker label, `SYNC_LABEL` in `src/utils.js`. -/
def SYNC_LABEL : String := "🔵-synced"

/-- JavaScript string falsiness: only the empty string is falsy. -/
def strFalsy (s : String) : Bool := s.data.isEmpty

/-- Falsiness of a nullable JavaScript string. -/
def jsFalsyStr : Option String → Bool
  | none => true
  | some s => strFalsy s

/-- Per-character ASCII lowering, modelling `String.prototype.toLowerCase`. -/
def lowerStr (s : String) : String := String.mk (s.data.map Char.toLower)

/-! ### Regular-expression matchers

The three regexes of `getSyncedIssueInfo` / the pinned-message scan:

* current format: ``/`Synced with issue #(\d+)`.*on \[.+?\]\(https:\/\/github\.com\/([^/]+)\/([^/)]+)/``
* legacy format: ``/`synced with issue #(\d+)`/i``
* issue URL: ``/github\.com\/([^/]+)\/([^/]+)\/issues\/\d+/``

Each is reproduced as a deterministic matcher: JavaScript `String.match`
finds the leftmost start position admitting a match, and within one start
position resolves quantifiers by backtracking priority (greedy `.*` longest
first, lazy `.+?` shortest first; a greedy run of a character class followed
by a character excluded from that class never backtracks). -/

/-- Characters a JavaScript `.` (without the `s` flag) does not match. -/
def isLineTerm (c : Char) : Bool :=
  c = '\n' || c = '\r' || c = ' ' || c = ' '

/-- Consume an exact literal, returning the rest of the input. -/
def dropLit : List Char → List Char → Option (List Char)
  | [], s => some s
  | _ :: _, [] => none
  | p :: ps, c :: cs => if c = p then dropLit ps cs else none

/-- Consume a literal case-insensitively (the legacy regex carries `/i`). -/
def dropLitCI : List Char → List Char → Option (List Char)
  | [], s => some s
  | _ :: _, [] => none
  | p :: ps, c :: cs => if c.toLower = p.toLower then dropLitCI ps cs else none

/-- `parseInt(digits, 10)` on a nonempty digit run. -/
def digitsToNat (ds : List Char) : Nat :=
  ds.foldl (fun acc c => acc * 10 + (c.toNat - '0'.toNat)) 0

/-- Tail of the current-format regex after `](https://github.com/`:
capture `[^/]+`, literal `/`, capture `[^/)]+`. -/
def curOwnerRepo (u : List Char) : Option (List Char × List Char) :=
  let o := u.takeWhile (fun c => c != '/')
  if o.isEmpty then none
  else
    match dropLit ['/'] (u.dropWhile (fun c => c != '/')) with
    | none => none
    | some v =>
      let r := v.takeWhile (fun c => c != '/' && c != ')')
      if r.isEmpty then none else some (o, r)

/-- The literal between the lazy group and the owner capture. -/
def curLinkLit : List Char := ("](https://github.com/").toList

/-- Lazy `.+?` (shortest first) followed by `curLinkLit` and `curOwnerRepo`. -/
def curLazy (u : List Char) : Option (List Char × List Char) :=
  let m := (u.takeWhile (fun c => !isLineTerm c)).length
  (List.range m).findSome? (fun i =>
    match dropLit curLinkLit (u.drop (i + 1)) with
    | none => none
    | some v => curOwnerRepo v)

/-- Greedy `.*` (longest first) followed by `on [` and the lazy tail. -/
def curDotStar (u : List Char) : Option (List Char × List Char) :=
  let m := (u.takeWhile (fun c => !isLineTerm c)).length
  ((List.range (m + 1)).reverse).findSome? (fun k =>
    match dropLit (("on [").toList) (u.drop k) with
    | none => none
    | some v => curLazy v)

/-- Match the current-format regex anchored at the start of `s`. -/
def matchCurrentAt (s : List Char) : Option (Nat × List Char × List Char) :=
  match dropLit (("`Synced with issue #").toList) s with
  | none => none
  | some rest =>
    let ds := rest.takeWhile Char.isDigit
    if ds.isEmpty then none
    else
      match dropLit ['`'] (rest.dropWhile Char.isDigit) with
      | none => none
      | some rest2 =>
        match curDotStar rest2 with
        | none => none
        | some (o, r) => some (digitsToNat ds, o, r)

/-- The current-format regex: leftmost match over the whole text. -/
def matchCurrent (s : List Char) : Option (Nat × List Char × List Char) :=
  s.tails.findSome? matchCurrentAt

/-- Match the legacy regex (case-insensitive) anchored at the start of `s`. -/
def matchLegacyAt (s : List Char) : Option Nat :=
  match dropLitCI (("`synced with issue #").toList) s with
  | none => none
  | some rest =>
    let ds := rest.takeWhile Char.isDigit
    if ds.isEmpty then none
    else
      match dropLit ['`'] (rest.dropWhile Char.isDigit) with
      | none => none
      | some _ => some (digitsToNat ds)

/-- The legacy regex: leftmost match over the whole text. -/
def matchLegacy (s : List Char) : Option Nat :=
  s.tails.findSome? matchLegacyAt

/-- Match the tracker issue URL regex anchored at the start of `s`. -/
def matchIssueUrlAt (s : List Char) : Option (List Char × List Char) :=
  match dropLit (("github.com/").toList) s with
  | none => none
  | some u =>
    let o := u.takeWhile (fun c => c != '/')
    if o.isEmpty then none
    else
      match dropLit ['/'] (u.dropWhile (fun c => c != '/')) with
      | none => none
      | some v =>
        let r := v.takeWhile (fun c => c != '/')
        if r.isEmpty then none
        else
          match dropLit (("/issues/").toList) (v.dropWhile (fun c => c != '/')) with
          | none => none
          | some w => if (w.takeWhile Char.isDigit).isEmpty then none else some (o, r)

/-- The tracker issue URL regex: leftmost match over the whole text. -/
def matchIssueUrl (s : List Char) : Option (List Char × List Char) :=
  s.tails.findSome? matchIssueUrlAt

/-- `SyncedIssueRef` of the spec: one entry of `getSyncedIssueInfo`'s result. -/
structure SyncedIssueRef where
  number : Nat
  owner : Option String
  repo : Option String
  deriving Repr, DecidableEq

/-- The per-pinned-message body of `getSyncedIssueInfo` (`src/utils.js`
lines 477-514): current format first; otherwise legacy format with owner
and repo recovered from a same-message issue URL when one exists. Total
over arbitrary text (the source never throws on a non-matching message). -/
def parsePinnedMessage (content : String) : Option SyncedIssueRef :=
  match matchCurrent content.data with
  | some (n, o, r) => some ⟨n, some (String.mk o), some (String.mk r)⟩
  | none =>
    match matchLegacy content.data with
    | some n =>
      match matchIssueUrl content.data with
      | some (o, r) => some ⟨n, some (String.mk o), some (String.mk r)⟩
      | none => some ⟨n, none, none⟩
    | none => none

/-- `getSyncedIssueInfo` over the fetched pinned-message contents. -/
def getSyncedIssueInfo (pinned : List String) : List SyncedIssueRef :=
  pinned.filterMap parsePinnedMessage

/-! ### Thread Locator: data model -/

/-- A forum tag (`availableTags` entry); `emoji` is `none` for `null`. -/
structure ForumTag where
  id : String
  name : String
  emoji : Option String
  deriving Repr, DecidableEq

/-- A forum thread as the search observes it. `pins` is the response of
`thread.messages.fetchPins()`: `none` models a fetch that timed out or
failed, `some msgs` the pinned messages' contents. -/
structure Thread where
  id : String
  name : String
  parentId : String
  appliedTags : List String
  archived : Bool
  pins : Option (List String)
  deriving Repr, DecidableEq

/-- `ThreadCacheEntry` of the spec (`{threadId, title, updatedAt}`). -/
structure CacheEntry where
  threadId : String
  title : String
  updatedAt : Nat
  deriving Repr, DecidableEq

/-- The in-memory thread cache, keyed as in `getThreadCacheKey`. -/
def Cache : Type := String → Option CacheEntry

/-- `getThreadCacheKey`: `lowercase(owner)/lowercase(repo)#issueNumber`. -/
def cacheKey (owner repo : String) (issueNumber : Nat) : String :=
  lowerStr owner ++ "/" ++ lowerStr repo ++ "#" ++ toString issueNumber

/-- `getThreadCacheEntry`, including its falsy-argument guard. -/
def cacheGet (c : Cache) (owner repo : String) (issueNumber : Nat) : Option CacheEntry :=
  if strFalsy owner || strFalsy repo || issueNumber == 0 then none
  else c (cacheKey owner repo issueNumber)

/-- `setThreadCacheEntry`, including its falsy-argument guard; `now`
supplies the `updatedAt` timestamp. -/
def cacheSet (c : Cache) (owner repo : String) (issueNumber : Nat)
    (threadId title : String) (now : Nat) : Cache :=
  if strFalsy owner || strFalsy repo || issueNumber == 0 || strFalsy threadId then c
  else fun k => if k = cacheKey owner repo issueNumber then some ⟨threadId, title, now⟩ else c k

/-- `deleteThreadCacheEntry`, including its falsy-argument guard. -/
def cacheDelete (c : Cache) (owner repo : String) (issueNumber : Nat) : Cache :=
  if strFalsy owner || strFalsy repo || issueNumber == 0 then c
  else fun k => if k = cacheKey owner repo issueNumber then none else c k

/-- `getTagEmojiName`: the tag's emoji name or `null`. -/
def getTagEmojiName (tag : ForumTag) : Option String := tag.emoji

/-- `isRepoSelectorTag`: strict equality of the emoji name against the
configured repository-selector emoji (`REPO_TAG_EMOJI`). -/
def isRepoSelectorTag (repoTagEmoji : String) (tag : ForumTag) : Bool :=
  getTagEmojiName tag == some repoTagEmoji

/-! ### Thread Locator: title normalization and similarity ordering -/

/-- Membership in the regex class `[a-z0-9]`. -/
def isLowerAlnum (c : Char) : Bool :=
  ('a' ≤ c && c ≤ 'z') || ('0' ≤ c && c ≤ '9')

/-- `replace(/[^a-z0-9]+/g, " ")`: collapse non-alphanumeric runs to one space. -/
def squashRuns : List Char → List Char
  | [] => []
  | c :: rest =>
    let r := squashRuns rest
    if isLowerAlnum c then c :: r
    else
      match r with
      | ' ' :: _ => r
      | _ => ' ' :: r

/-- `trim()` on the squashed text (only spaces can remain at the ends). -/
def trimSpaces (l : List Char) : List Char :=
  ((l.dropWhile (fun c => c == ' ')).reverse.dropWhile (fun c => c == ' ')).reverse

/-- `title.toLowerCase().replace(/[^a-z0-9]+/g, " ").trim()`. -/
def normalizeTitle (s : String) : String :=
  String.mk (trimSpaces (squashRuns (s.data.map Char.toLower)))

/-- `String.prototype.includes`: substring containment. -/
def includesStr (hay needle : String) : Bool :=
  hay.data.tails.any (fun suf => needle.data.isPrefixOf suf)

/-- The comparator's match test: the candidate's normalized name contains,
or is contained in, the normalized issue-title hint. -/
def threadTitleMatch (nq : String) (t : Thread) : Bool :=
  let nName := normalizeTitle t.name
  includesStr nName nq || includesStr nq nName

/-- `normalizedIssueTitle`: `issueTitle ? normalize(issueTitle) : null`. -/
def normTitleOpt : Option String → Option String
  | none => none
  | some s => if strFalsy s then none else some (normalizeTitle s)

/-- The sort comparator (`src/utils.js` lines 814-822), including the
falsy-hint early return. -/
def threadCmp (nq : Option String) (a b : Thread) : Int :=
  match nq with
  | none => 0
  | some q =>
    if strFalsy q then 0
    else
      let am := threadTitleMatch q a
      let bm := threadTitleMatch q b
      if am = bm then 0 else if am then -1 else 1

/-- Stable insertion: a later element goes after every earlier element the
comparator does not order strictly after it. -/
def insertByCmp (cmp : Thread → Thread → Int) (x : Thread) : List Thread → List Thread
  | [] => [x]
  | y :: ys => if cmp y x < 0 then y :: insertByCmp cmp x ys else x :: y :: ys

/-- `Array.prototype.sort` with a consistent comparator (stable since
ES2019), modelled as stable insertion sort. -/
def sortByCmp (cmp : Thread → Thread → Int) : List Thread → List Thread
  | [] => []
  | x :: xs => insertByCmp cmp x (sortByCmp cmp xs)

/-! ### Thread Locator: archived-thread pagination -/

/-- One `fetchArchived` response: the page's threads and its `hasMore`. -/
structure ArchivedPage where
  threads : List Thread
  hasMore : Bool
  deriving Repr, DecidableEq

/-- The archived-thread pagination loop (`src/utils.js` lines 756-786).
The input list supplies the successive `fetchArchived` responses; `none`
models a fetch that throws (logged, the loop breaks). Returns the threads
accumulated and the number of page fetches performed. -/
def fetchArchivedLoop : List (Option ArchivedPage) → List Thread × Nat
  | [] => ([], 0)
  | none :: _ => ([], 1)
  | some p :: rest =>
    if p.hasMore && !p.threads.isEmpty then
      let r := fetchArchivedLoop rest
      (p.threads ++ r.1, r.2 + 1)
    else (p.threads, 1)

/-! ### Thread Locator: repository pre-filter -/

/-- Whether a thread carries one of the repository-selector tag ids. -/
def threadCarriesTag (repoTagIds : List String) (t : Thread) : Bool :=
  t.appliedTags.any (fun tid => repoTagIds.contains tid)

/-- The ids of repository-selector tags whose name matches the requested
repo (`src/utils.js` lines 788-793). -/
def repoSelectorTagIds (repoTagEmoji : String) (forumTags : List ForumTag)
    (repo : Option String) : List String :=
  if jsFalsyStr repo then []
  else
    (forumTags.filter (fun tag =>
      isRepoSelectorTag repoTagEmoji tag &&
        lowerStr tag.name == lowerStr (repo.getD ""))).map (fun tag => tag.id)

/-- The repository pre-filter (`src/utils.js` lines 795-801): narrow to
threads carrying a matching repo tag, falling back to the full set when
the narrowed set is empty. -/
def preFilterCandidates (repoTagIds : List String) (allThreads : List Thread) : List Thread :=
  let taggedThreads :=
    if repoTagIds.isEmpty then []
    else allThreads.filter (threadCarriesTag repoTagIds)
  if taggedThreads.isEmpty then allThreads else taggedThreads

/-! ### Thread Locator: pinned-message confirmation scan -/

/-- The per-pinned-message body of the confirmation scan (`src/utils.js`
lines 870-925). `none`: this message does not confirm the thread. `some w`:
it does, where `w` is the cache write to perform (`some (owner, repo)` for
a write, `none` for a legacy match lacking URL-recovered owner/repo). -/
def scanMessage (issueNumber : Nat) (owner repo : Option String) (content : String) :
    Option (Option (String × String)) :=
  match matchCurrent content.data with
  | some (mn, moL, mrL) =>
    let mo := String.mk moL
    let mr := String.mk mrL
    if mn == issueNumber &&
        (jsFalsyStr owner || jsFalsyStr repo ||
          (mo == owner.getD "" && mr == repo.getD ""))
    then some (some (mo, mr))
    else none
  | none =>
    match matchLegacy content.data with
    | some mn =>
      match matchIssueUrl content.data with
      | some (moL, mrL) =>
        let mo := String.mk moL
        let mr := String.mk mrL
        if mn == issueNumber &&
            (jsFalsyStr owner || jsFalsyStr repo ||
              (mo == owner.getD "" && mr == repo.getD ""))
        then some (some (mo, mr))
        else none
      | none => if mn == issueNumber then some none else none
    | none => none

/-- Scan one thread's pinned messages, stopping at the first match. -/
def scanPins (issueNumber : Nat) (owner repo : Option String) :
    List String → Option (Option (String × String))
  | [] => none
  | msg :: rest =>
    match scanMessage issueNumber owner repo msg with
    | some w => some w
    | none => scanPins issueNumber owner repo rest

/-- The candidate loop (`src/utils.js` lines 836-931): skip candidates whose
pinned-message fetch failed, stop at the first thread with a matching pinned
marker, performing that match's cache write. -/
def scanThreads (issueNumber : Nat) (owner repo : Option String) (now : Nat) (cache : Cache) :
    List Thread → List Thread × Cache
  | [] => ([], cache)
  | t :: rest =>
    match t.pins with
    | none => scanThreads issueNumber owner repo now cache rest
    | some msgs =>
      match scanPins issueNumber owner repo msgs with
      | some write =>
        ([t],
          match write with
          | some (mo, mr) => cacheSet cache mo mr issueNumber t.id t.name now
          | none => cache)
      | none => scanThreads issueNumber owner repo now cache rest

/-! ### Thread Locator: top level -/

/-- The remote environment `findThreadsForIssue` queries: the forum, its
tags, its active threads, the archived-page responses, and the channel
client (`client.channels.fetch` by id; `none` models a fetch that throws
or resolves to nothing). -/
structure SearchWorld where
  forumId : String
  repoTagEmoji : String
  forumTags : List ForumTag
  activeThreads : List Thread
  archivedPages : List (Option ArchivedPage)
  channelById : String → Option Thread

/-- Result of one `findThreadsForIssue` call: the returned threads, the
cache afterwards, whether the enumeration path ran, and how many archived
page fetches were made. -/
structure FindResult where
  threads : List Thread
  cache : Cache
  searched : Bool
  archivedFetches : Nat

/-- The full-search path of `findThreadsForIssue` (`src/utils.js` lines
739-941): enumerate active plus archived threads, apply the repository
pre-filter, order by title similarity, and run the confirmation scan. -/
def fullSearch (w : SearchWorld) (cache : Cache) (now : Nat) (issueNumber : Nat)
    (owner repo issueTitle : Option String) : FindResult :=
  let archived := fetchArchivedLoop w.archivedPages
  let allThreads := w.activeThreads ++ archived.1
  let repoTagIds := repoSelectorTagIds w.repoTagEmoji w.forumTags repo
  let candidateThreads := preFilterCandidates repoTagIds allThreads
  let nq := normTitleOpt issueTitle
  let orderedThreads := sortByCmp (threadCmp nq) candidateThreads
  let scanned := scanThreads issueNumber owner repo now cache orderedThreads
  ⟨scanned.1, scanned.2, true, archived.2⟩

/-- `findThreadsForIssue` (`src/utils.js` lines 698-941): with truthy owner
and repo, try the cache first; a cached thread that resolves under the
target forum is returned alone, otherwise the stale entry is deleted and
the full search runs. -/
def findThreadsForIssue (w : SearchWorld) (cache : Cache) (now : Nat) (issueNumber : Nat)
    (owner repo issueTitle : Option String) : FindResult :=
  if jsFalsyStr owner || jsFalsyStr repo then
    fullSearch w cache now issueNumber owner repo issueTitle
  else
    match cacheGet cache (owner.getD "") (repo.getD "") issueNumber with
    | some entry =>
      if strFalsy entry.threadId then
        fullSearch w cache now issueNumber owner repo issueTitle
      else
        match w.channelById entry.threadId with
        | some t =>
          if t.parentId == w.forumId then ⟨[t], cache, false, 0⟩
          else
            fullSearch w (cacheDelete cache (owner.getD "") (repo.getD "") issueNumber)
              now issueNumber owner repo issueTitle
        | none =>
          fullSearch w (cacheDelete cache (owner.getD "") (repo.getD "") issueNumber)
            now issueNumber owner repo issueTitle
    | none => fullSearch w cache now issueNumber owner repo issueTitle

/-! ### Sync handlers: issue opened, tag ceiling -/

/-- A tracker issue as the webhook payload carries it (`labels` is the
snapshot delivered in the payload; `none` models a missing field). -/
structure GhIssue where
  number : Nat
  title : String
  body : String
  labels : Option (List String)
  authorLogin : String
  deriving Repr, DecidableEq

/-- `hasSyncLabel` (`src/utils.js` lines 530-532): optional-chained `some`
over the payload's label snapshot. -/
def hasSyncLabel (issue : GhIssue) : Bool :=
  match issue.labels with
  | none => false
  | some ls => ls.contains SYNC_LABEL

/-- The observable effects `handleIssueOpened` has: the server-side labels
it posts and the chat threads it creates (recorded by title; tag seeding
and pinning do not affect the thread count the idempotence claim observes). -/
structure OpenedWorld where
  issueLabels : List String
  createdThreadTitles : List String
  deriving Repr, DecidableEq

/-- `handleIssueOpened` (`payloadProcessor` lines 669-713): drop the event
without an octokit; no-op when the payload's issue snapshot already carries
the sync label; otherwise apply the sync label and create a thread. -/
def handleIssueOpened (octokitPresent : Bool) (issue : GhIssue) (w : OpenedWorld) : OpenedWorld :=
  if !octokitPresent then w
  else if hasSyncLabel issue then w
  else
    { w with
      issueLabels := w.issueLabels ++ [SYNC_LABEL],
      createdThreadTitles := w.createdThreadTitles ++ [issue.title] }

/-- Outcome of one per-thread tag addition: the (possibly updated) thread
and whether the 5-tag-limit skip was logged. -/
structure TagAddOutcome where
  thread : Thread
  limitSkipLogged : Bool
  deriving Repr, DecidableEq

/-- The per-thread tag-add discipline shared by `handleIssueLabeled`
(lines 927-949) and `handleIssueClosed` (lines 748-770): skip when already
applied; log and skip when the thread holds 5 applied tags; append otherwise. -/
def addTagRespectingLimit (tagId : String) (t : Thread) : TagAddOutcome :=
  let currentTags := t.appliedTags
  if currentTags.contains tagId then ⟨t, false⟩
  else if 5 ≤ currentTags.length then ⟨t, true⟩
  else ⟨{ t with appliedTags := currentTags ++ [tagId] }, false⟩

/-- The thread loop of `handleIssueLabeled`: every found thread gets the
label's tag, each addition independent of its siblings. -/
def handleIssueLabeledThreads (tagId : String) : List Thread → List Thread
  | [] => []
  | t :: rest => (addTagRespectingLimit tagId t).thread :: handleIssueLabeledThreads tagId rest

/-- The thread loop of `handleIssueClosed` restricted to its tag mutation:
every found thread gets the closed-state tag when one exists. -/
def handleIssueClosedThreads (closedTag : Option ForumTag) : List Thread → List Thread
  | [] => []
  | t :: rest =>
    (match closedTag with
     | none => t
     | some tag => (addTagRespectingLimit tag.id t).thread) ::
      handleIssueClosedThreads closedTag rest

/-! ### Concrete inputs used by the witnesses -/

/-- A thread sitting under forum `F1`. -/
def sampleThread : Thread := ⟨"T1", "Crash on startup", "F1", [], false, some []⟩

/-- A world whose channel client resolves `T1` to `sampleThread`. -/
def sampleWorld : SearchWorld :=
  ⟨"F1", "🧭", [], [], [], fun cid => if cid = "T1" then some sampleThread else none⟩

/-- A world whose channel client fails every fetch. -/
def deadChannelWorld : SearchWorld :=
  ⟨"F1", "🧭", [], [], [], fun _ => none⟩

/-- A cache holding `o/r#42 ↦ {threadId := T1}`. -/
def sampleCache : Cache :=
  fun k => if k = cacheKey "o" "r" 42 then some ⟨"T1", "Crash on startup", 0⟩ else none

/-- A thread already holding 5 applied tags. -/
def fullThread : Thread := ⟨"T9", "n", "F1", ["a", "b", "c", "d", "e"], false, none⟩

/-- An `issues.opened` payload issue carrying no labels. -/
def openedIssueSample : GhIssue := ⟨1, "Crash on startup", "body", some [], "alice"⟩

/-! ### Identity Resolver theorems -/

/-- Helper for C5: every parsed reference has owner and repo either both
present or both absent. -/
theorem parsePinnedMessage_paired (content : String) (ref : SyncedIssueRef)
    (hp : parsePinnedMessage content = some ref) :
    (ref.owner = none ↔ ref.repo = none) := by
  unfold parsePinnedMessage at hp
  split at hp
  · obtain rfl := Option.some.inj hp
    simp
  · split at hp
    · split at hp
      · obtain rfl := Option.some.inj hp
        simp
      · obtain rfl := Option.some.inj hp
        simp
    · exact absurd hp (by simp)

/-- C1: over any message text, the Identity Resolver tries the
current-format pattern first and returns its issue number with the inline
owner/repo on a match; otherwise it tries the legacy pattern, recovering
owner/repo from a same-message tracker issue URL when one exists and
leaving both null when none does; text matching neither pattern yields no
reference. The function is total over arbitrary text (the embedding never
throws). -/
theorem C1_identity_resolver_dispatch (text : String) :
    (∀ n o r, matchCurrent text.data = some (n, o, r) →
      getSyncedIssueInfo [text] = [⟨n, some (String.mk o), some (String.mk r)⟩]) ∧
    (matchCurrent text.data = none →
      (∀ n, matchLegacy text.data = some n →
        (∀ o r, matchIssueUrl text.data = some (o, r) →
          getSyncedIssueInfo [text] = [⟨n, some (String.mk o), some (String.mk r)⟩]) ∧
        (matchIssueUrl text.data = none →
          getSyncedIssueInfo [text] = [⟨n, none, none⟩])) ∧
      (matchLegacy text.data = none → getSyncedIssueInfo [text] = [])) := by
  refine ⟨fun n o r h => ?_,
    fun hcur => ⟨fun n hleg => ⟨fun o r hurl => ?_, fun hurl => ?_⟩, fun hleg => ?_⟩⟩
  · simp [getSyncedIssueInfo, parsePinnedMessage, h]
  · simp [getSyncedIssueInfo, parsePinnedMessage, hcur, hleg, hurl]
  · simp [getSyncedIssueInfo, parsePinnedMessage, hcur, hleg, hurl]
  · simp [getSyncedIssueInfo, parsePinnedMessage, hcur, hleg]

/-- Witness for C1 at a concrete current-format marker. -/
theorem C1_identity_resolver_dispatch_witness :
    getSyncedIssueInfo [("`Synced with issue #7` on [r](https://github.com/o/r)" : String)] =
      [⟨7, some (String.mk ['o']), some (String.mk ['r'])⟩] :=
  (C1_identity_resolver_dispatch
    ("`Synced with issue #7` on [r](https://github.com/o/r)" : String)).1 7 ['o'] ['r'] rfl

/-- C5 counterexample: a legacy marker citing issue `#0` parses to a
reference whose issue number is not positive, so positivity fails on the
code as the claim states it. -/
theorem C5_counterexample_zero_issue :
    ¬ (∀ ref ∈ getSyncedIssueInfo [("`synced with issue #0`" : String)], 0 < ref.number) := by
  intro h
  have hm : (⟨0, none, none⟩ : SyncedIssueRef) ∈
      getSyncedIssueInfo [("`synced with issue #0`" : String)] := by
    rw [show getSyncedIssueInfo [("`synced with issue #0`" : String)]
        = [⟨0, none, none⟩] from rfl]
    exact List.mem_singleton.mpr rfl
  exact absurd (h _ hm) (by decide)

/-- C5 amended: every reference the Identity Resolver produces has its
issue number present (a natural number, zero only for a marker literally
citing issue `#0`), and owner and repo either both present or both null. -/
theorem C5_invariant_owner_repo_paired (texts : List String) (ref : SyncedIssueRef)
    (h : ref ∈ getSyncedIssueInfo texts) :
    0 ≤ ref.number ∧ (ref.owner = none ↔ ref.repo = none) := by
  obtain ⟨t, -, hp⟩ := List.mem_filterMap.mp h
  exact ⟨Nat.zero_le _, parsePinnedMessage_paired t ref hp⟩

/-! ### Thread Locator cache lemmas -/

/-- Deleting a key makes the subsequent lookup of that key miss. -/
theorem cacheGet_cacheDelete (c : Cache) (o r : String) (n : Nat) :
    cacheGet (cacheDelete c o r n) o r n = none := by
  unfold cacheGet cacheDelete
  by_cases hg : (strFalsy o || strFalsy r || n == 0) = true
  · simp [hg]
  · simp [hg]

/-- A lookup after a cache write either sees the written thread id or what
the underlying cache already held. -/
theorem cacheGet_cacheSet (c : Cache) (a b : String) (m : Nat) (tid ttl : String)
    (now : Nat) (o r : String) (n : Nat) (e : CacheEntry)
    (h : cacheGet (cacheSet c a b m tid ttl now) o r n = some e) :
    e.threadId = tid ∨ cacheGet c o r n = some e := by
  unfold cacheGet cacheSet at h
  by_cases hg : (strFalsy o || strFalsy r || n == 0) = true
  · simp [hg] at h
  · by_cases hs : (strFalsy a || strFalsy b || m == 0 || strFalsy tid) = true
    · rw [if_pos hs] at h
      right
      unfold cacheGet
      simp [hg]
      simpa [hg] using h
    · rw [if_neg hs] at h
      simp only [hg, if_false, Bool.false_eq_true] at h
      by_cases hk : cacheKey o r n = cacheKey a b m
      · rw [if_pos hk] at h
        obtain rfl := Option.some.inj h
        left
        rfl
      · rw [if_neg hk] at h
        right
        unfold cacheGet
        simpa [hg] using h

/-- The confirmation scan returns at most one thread. -/
theorem scanThreads_length (issueNumber : Nat) (owner repo : Option String) (now : Nat)
    (cache : Cache) (ts : List Thread) :
    (scanThreads issueNumber owner repo now cache ts).1.length ≤ 1 := by
  induction ts with
  | nil => simp [scanThreads]
  | cons t rest ih =>
    unfold scanThreads
    split
    · exact ih
    · split
      · simp
      · exact ih

/-- The confirmation scan either finds nothing and leaves the cache alone,
or returns a single thread, the cache possibly refreshed with that thread's
id under the issue number being searched. -/
theorem scanThreads_spec (issueNumber : Nat) (owner repo : Option String) (now : Nat)
    (cache : Cache) (ts : List Thread) :
    scanThreads issueNumber owner repo now cache ts = ([], cache) ∨
    ∃ t, (scanThreads issueNumber owner repo now cache ts).1 = [t] ∧
      ((scanThreads issueNumber owner repo now cache ts).2 = cache ∨
        ∃ mo mr, (scanThreads issueNumber owner repo now cache ts).2 =
          cacheSet cache mo mr issueNumber t.id t.name now) := by
  induction ts with
  | nil => exact Or.inl rfl
  | cons t rest ih =>
    unfold scanThreads
    split
    · exact ih
    · split
      · rename_i write _
        right
        refine ⟨t, rfl, ?_⟩
        rcases write with _ | ⟨mo, mr⟩
        · exact Or.inl rfl
        · exact Or.inr ⟨mo, mr, rfl⟩
      · exact ih

/-- The full search leaves the cache alone, or returns a single thread and
refreshes the cache with that thread's id. -/
theorem fullSearch_cache_spec (w : SearchWorld) (c : Cache) (now n : Nat)
    (owner repo issueTitle : Option String) :
    (fullSearch w c now n owner repo issueTitle).cache = c ∨
    ∃ t mo mr, (fullSearch w c now n owner repo issueTitle).threads = [t] ∧
      (fullSearch w c now n owner repo issueTitle).cache =
        cacheSet c mo mr n t.id t.name now := by
  simp only [fullSearch]
  rcases scanThreads_spec n owner repo now c
      (sortByCmp (threadCmp (normTitleOpt issueTitle))
        (preFilterCandidates (repoSelectorTagIds w.repoTagEmoji w.forumTags repo)
          (w.activeThreads ++ (fetchArchivedLoop w.archivedPages).1))) with h | ⟨t, h1, h2⟩
  · left
    rw [h]
  · rcases h2 with h2 | ⟨mo, mr, h2⟩
    · left
      exact h2
    · right
      exact ⟨t, mo, mr, h1, h2⟩

/-! ### Thread Locator theorems -/

/-- C2: with owner and repo given, a cache entry whose thread resolves and
still sits under the target forum is returned alone, the cache untouched,
without running the enumeration (no search, no archived page fetches). -/
theorem C2_cache_hit_short_circuit (w : SearchWorld) (cache : Cache) (now issueNumber : Nat)
    (o r : String) (issueTitle : Option String) (entry : CacheEntry) (t : Thread)
    (ho : strFalsy o = false) (hr : strFalsy r = false)
    (hc : cacheGet cache o r issueNumber = some entry)
    (hid : strFalsy entry.threadId = false)
    (ht : w.channelById entry.threadId = some t)
    (hp : (t.parentId == w.forumId) = true) :
    findThreadsForIssue w cache now issueNumber (some o) (some r) issueTitle =
      ⟨[t], cache, false, 0⟩ := by
  unfold findThreadsForIssue
  simp [jsFalsyStr, ho, hr, hc, hid, ht, hp]

/-- Witness for C2 at a concrete world and cache. -/
theorem C2_cache_hit_short_circuit_witness :
    findThreadsForIssue sampleWorld sampleCache 0 42 (some "o") (some "r") none =
      ⟨[sampleThread], sampleCache, false, 0⟩ :=
  C2_cache_hit_short_circuit sampleWorld sampleCache 0 42 "o" "r" none
    ⟨"T1", "Crash on startup", 0⟩ sampleThread rfl rfl rfl rfl rfl rfl

/-- C3: a cache entry whose thread fails to resolve, or resolves outside
the target forum, is deleted before the full search runs; the lookup the
search continues with misses that key, the enumeration path runs (the
failure surfaces as a search, not an error), and any entry the search
leaves at that key points at a thread the search itself returned — a
subsequent call can never short-circuit on the stale entry. -/
theorem C3_stale_cache_invalidated (w : SearchWorld) (cache : Cache) (now issueNumber : Nat)
    (o r : String) (issueTitle : Option String) (entry : CacheEntry)
    (ho : strFalsy o = false) (hr : strFalsy r = false)
    (hc : cacheGet cache o r issueNumber = some entry)
    (hid : strFalsy entry.threadId = false)
    (hfail : w.channelById entry.threadId = none ∨
      ∃ t, w.channelById entry.threadId = some t ∧ (t.parentId == w.forumId) = false) :
    findThreadsForIssue w cache now issueNumber (some o) (some r) issueTitle =
        fullSearch w (cacheDelete cache o r issueNumber) now issueNumber
          (some o) (some r) issueTitle ∧
      cacheGet (cacheDelete cache o r issueNumber) o r issueNumber = none ∧
      (findThreadsForIssue w cache now issueNumber (some o) (some r) issueTitle).searched
        = true ∧
      (∀ e2, cacheGet (findThreadsForIssue w cache now issueNumber
            (some o) (some r) issueTitle).cache o r issueNumber = some e2 →
        ∃ t ∈ (findThreadsForIssue w cache now issueNumber
            (some o) (some r) issueTitle).threads, e2.threadId = t.id) := by
  have hmain : findThreadsForIssue w cache now issueNumber (some o) (some r) issueTitle =
      fullSearch w (cacheDelete cache o r issueNumber) now issueNumber
        (some o) (some r) issueTitle := by
    unfold findThreadsForIssue
    rcases hfail with hnone | ⟨t, hsome, hpar⟩
    · simp [jsFalsyStr, ho, hr, hc, hid, hnone]
    · simp [jsFalsyStr, ho, hr, hc, hid, hsome, hpar]
  refine ⟨hmain, cacheGet_cacheDelete cache o r issueNumber, ?_, ?_⟩
  · rw [hmain]
    rfl
  · intro e2 he2
    rw [hmain] at he2 ⊢
    rcases fullSearch_cache_spec w (cacheDelete cache o r issueNumber) now issueNumber
        (some o) (some r) issueTitle with hcc | ⟨t, mo, mr, hth, hcc⟩
    · rw [hcc, cacheGet_cacheDelete] at he2
      exact absurd he2 (by simp)
    · rw [hcc] at he2
      rcases cacheGet_cacheSet _ mo mr issueNumber t.id t.name now o r issueNumber e2 he2
          with htid | hbase
      · exact ⟨t, by rw [hth]; exact List.mem_singleton.mpr rfl, htid⟩
      · rw [cacheGet_cacheDelete] at hbase
        exact absurd hbase (by simp)

/-- Witness for C3 at a world whose channel client fails every fetch. -/
theorem C3_stale_cache_invalidated_witness :
    cacheGet (cacheDelete sampleCache "o" "r" 42) "o" "r" 42 = none :=
  (C3_stale_cache_invalidated deadChannelWorld sampleCache 0 42 "o" "r" none
    ⟨"T1", "Crash on startup", 0⟩ rfl rfl rfl rfl (Or.inl rfl)).2.1

/-- C10: both the full-search path and `findThreadsForIssue` as a whole
return at most one thread — enumeration stops at the first thread whose
pinned scan matches, and the pinned scan stops at its first valid match —
despite the declared list-of-threads contract. -/
theorem C10_at_most_one_thread (w : SearchWorld) (cache : Cache) (now issueNumber : Nat)
    (owner repo issueTitle : Option String) :
    (fullSearch w cache now issueNumber owner repo issueTitle).threads.length ≤ 1 ∧
    (findThreadsForIssue w cache now issueNumber owner repo issueTitle).threads.length ≤ 1 := by
  have hfs : ∀ c : Cache, (fullSearch w c now issueNumber owner repo issueTitle).threads.length ≤ 1 := by
    intro c
    simp only [fullSearch]
    exact scanThreads_length issueNumber owner repo now c _
  refine ⟨hfs cache, ?_⟩
  unfold findThreadsForIssue
  split
  · exact hfs cache
  · split
    · split
      · exact hfs cache
      · split
        · split
          · simp
          · exact hfs _
        · exact hfs _
    · exact hfs cache

/-- C6: when repository-selector tag ids exist and some thread carries one,
candidates narrow to those threads; when none does, the full set is kept;
the pre-filter never turns a non-empty candidate set into an empty one. -/
theorem C6_repo_prefilter (repoTagIds : List String) (allThreads : List Thread) :
    (allThreads ≠ [] → preFilterCandidates repoTagIds allThreads ≠ []) ∧
    (repoTagIds ≠ [] → allThreads.filter (threadCarriesTag repoTagIds) ≠ [] →
      preFilterCandidates repoTagIds allThreads =
        allThreads.filter (threadCarriesTag repoTagIds)) ∧
    (allThreads.filter (threadCarriesTag repoTagIds) = [] →
      preFilterCandidates repoTagIds allThreads = allThreads) := by
  unfold preFilterCandidates
  refine ⟨?_, ?_, ?_⟩
  · intro hne
    by_cases hids : repoTagIds.isEmpty = true
    · simpa [hids] using hne
    · by_cases hf : (allThreads.filter (threadCarriesTag repoTagIds)).isEmpty = true
      · simpa [hids, hf] using hne
      · simp only [hids, if_false, Bool.false_eq_true, hf]
        intro hcontra
        exact hf (by simp [hcontra])
  · intro hids hf
    have hids2 : repoTagIds.isEmpty = false := by
      cases repoTagIds with
      | nil => exact absurd rfl hids
      | cons a as => rfl
    have hf2 : (allThreads.filter (threadCarriesTag repoTagIds)).isEmpty = false := by
      cases hfe : allThreads.filter (threadCarriesTag repoTagIds) with
      | nil => exact absurd hfe hf
      | cons a as => rfl
    simp [hids2, hf2]
  · intro hf
    by_cases hids : repoTagIds.isEmpty = true
    · simp [hids]
    · simp [hids, hf]

/-- Witness for C6: the pre-filter keeps a non-empty candidate set non-empty. -/
theorem C6_repo_prefilter_witness :
    preFilterCandidates ["x"] [sampleThread] ≠ [] :=
  (C6_repo_prefilter ["x"] [sampleThread]).1 (by simp)

/-! ### Similarity-ordering lemmas -/

/-- The empty needle is a prefix of anything. -/
theorem isPrefixOf_nil_left (l : List Char) : ([] : List Char).isPrefixOf l = true := by
  cases l <;> rfl

/-- JavaScript `includes` with an empty needle is always true. -/
theorem includesStr_empty_needle (hay q : String) (hq : strFalsy q = true) :
    includesStr hay q = true := by
  unfold includesStr
  have hqd : q.data = [] := by
    cases q with
    | mk d => cases d with
      | nil => rfl
      | cons c cs => exact absurd hq (by simp [strFalsy])
  rw [hqd]
  apply List.any_eq_true.mpr
  exact ⟨hay.data, (List.mem_tails _ _).mpr (List.suffix_refl _), isPrefixOf_nil_left _⟩

/-- With an empty normalized hint the comparator's match test holds for
every thread (every name contains the empty string). -/
theorem threadTitleMatch_empty (q : String) (hq : strFalsy q = true) (t : Thread) :
    threadTitleMatch q t = true := by
  have h1 := includesStr_empty_needle (normalizeTitle t.name) q hq
  simp [threadTitleMatch, h1]

/-- A comparator that never orders strictly leaves the list unchanged. -/
theorem sortByCmp_const_zero (cmp : Thread → Thread → Int) (h : ∀ a b, cmp a b = 0)
    (ts : List Thread) : sortByCmp cmp ts = ts := by
  induction ts with
  | nil => rfl
  | cons x xs ih =>
    unfold sortByCmp
    rw [ih]
    cases xs with
    | nil => rfl
    | cons y ys => simp [insertByCmp, h]

/-- The comparator with a non-falsy hint, evaluated. -/
theorem threadCmp_eval (q : String) (hq : strFalsy q = false) (a b : Thread) :
    threadCmp (some q) a b =
      if threadTitleMatch q a = threadTitleMatch q b then 0
      else if threadTitleMatch q a then -1 else 1 := by
  simp [threadCmp, hq]

/-- Stable insertion into a matched-then-unmatched list keeps the partition:
a matching element lands at the front, a non-matching one right after the
matching block. -/
theorem insertByCmp_key (q : String) (hq : strFalsy q = false) (x : Thread) :
    ∀ (A B : List Thread), (∀ y ∈ A, threadTitleMatch q y = true) →
      (∀ y ∈ B, threadTitleMatch q y = false) →
      insertByCmp (threadCmp (some q)) x (A ++ B) =
        if threadTitleMatch q x then x :: (A ++ B) else A ++ x :: B := by
  intro A
  induction A with
  | nil =>
    intro B _ hB
    cases B with
    | nil => cases hx : threadTitleMatch q x <;> simp [insertByCmp, hx]
    | cons b bs =>
      have hb := hB b (by simp)
      cases hx : threadTitleMatch q x <;>
        simp [insertByCmp, threadCmp_eval q hq, hx, hb]
  | cons a as ih =>
    intro B hA hB
    have ha := hA a (by simp)
    have ih2 := ih B (fun y hy => hA y (by simp [hy])) hB
    cases hx : threadTitleMatch q x
    · rw [if_neg (by simp [hx])] at ih2 ⊢
      simp only [List.cons_append]
      rw [insertByCmp]
      rw [if_pos (by rw [threadCmp_eval q hq, ha, hx]; norm_num)]
      rw [ih2]
    · rw [if_pos (by simp [hx])] at ih2 ⊢
      simp only [List.cons_append]
      rw [insertByCmp]
      rw [if_neg (by rw [threadCmp_eval q hq, ha, hx]; norm_num)]

/-- The stable sort with the title comparator is exactly the stable
partition: matching candidates first, relative order preserved in both
groups. -/
theorem sortByCmp_partition (q : String) (hq : strFalsy q = false) (ts : List Thread) :
    sortByCmp (threadCmp (some q)) ts =
      ts.filter (fun t => threadTitleMatch q t) ++
        ts.filter (fun t => !(threadTitleMatch q t)) := by
  induction ts with
  | nil => rfl
  | cons x xs ih =>
    unfold sortByCmp
    rw [ih]
    rw [insertByCmp_key q hq x (xs.filter (fun t => threadTitleMatch q t))
      (xs.filter (fun t => !(threadTitleMatch q t)))
      (fun y hy => (List.mem_filter.mp hy).2)
      (fun y hy => by simpa using (List.mem_filter.mp hy).2)]
    cases hx : threadTitleMatch q x
    · simp [hx, List.filter_cons]
    · simp [hx, List.filter_cons]

/-- C7: with no issue-title hint (or a hint whose normalization is empty,
which the comparator treats as absent) the order is unchanged; with a hint,
candidates whose normalized name contains or is contained in the normalized
hint precede all others, each group keeping its original relative order. -/
theorem C7_similarity_ordering :
    (∀ ts, sortByCmp (threadCmp none) ts = ts) ∧
    (∀ q ts, sortByCmp (threadCmp (some q)) ts =
      ts.filter (fun t => threadTitleMatch q t) ++
        ts.filter (fun t => !(threadTitleMatch q t))) := by
  constructor
  · intro ts
    exact sortByCmp_const_zero _ (fun a b => rfl) ts
  · intro q ts
    by_cases hq : strFalsy q = true
    · rw [sortByCmp_const_zero _ (fun a b => by simp [threadCmp, hq]) ts]
      rw [List.filter_eq_self.mpr (fun a _ => threadTitleMatch_empty q hq a)]
      rw [List.filter_eq_nil_iff.mpr (fun a _ => by simp [threadTitleMatch_empty q hq a])]
      simp
    · exact sortByCmp_partition q (by simpa using hq) ts

/-- C8: a thread already holding 5 applied tags is left unchanged by a tag
addition, with the limit skip logged when the tag was genuinely new; any
thread within the 5-tag invariant stays within it; and both handlers apply
the addition to every found thread independently, so one full thread never
blocks its siblings. -/
theorem C8_tag_ceiling :
    (∀ tagId t, 5 ≤ t.appliedTags.length → (addTagRespectingLimit tagId t).thread = t) ∧
    (∀ tagId t, 5 ≤ t.appliedTags.length → tagId ∉ t.appliedTags →
      (addTagRespectingLimit tagId t).limitSkipLogged = true) ∧
    (∀ tagId t, t.appliedTags.length ≤ 5 →
      (addTagRespectingLimit tagId t).thread.appliedTags.length ≤ 5) ∧
    (∀ tagId ts, handleIssueLabeledThreads tagId ts =
      ts.map (fun t => (addTagRespectingLimit tagId t).thread)) ∧
    (∀ tag ts, handleIssueClosedThreads (some tag) ts =
      ts.map (fun t => (addTagRespectingLimit tag.id t).thread)) := by
  refine ⟨?_, ?_, ?_, ?_, ?_⟩
  · intro tagId t h
    unfold addTagRespectingLimit
    by_cases hc : tagId ∈ t.appliedTags
    · simp [hc]
    · simp [hc, h]
  · intro tagId t h hc
    unfold addTagRespectingLimit
    simp [hc, h]
  · intro tagId t h
    unfold addTagRespectingLimit
    by_cases hc : tagId ∈ t.appliedTags
    · simp [hc]
      exact h
    · by_cases h5 : 5 ≤ t.appliedTags.length
      · simp [hc, h5]
        exact h
      · simp [hc, h5]
        omega
  · intro tagId ts
    induction ts with
    | nil => rfl
    | cons t rest ih => simp [handleIssueLabeledThreads, ih]
  · intro tag ts
    induction ts with
    | nil => rfl
    | cons t rest ih => simp [handleIssueClosedThreads, ih]

/-- Witness for C8 at a thread already holding 5 tags. -/
theorem C8_tag_ceiling_witness :
    (addTagRespectingLimit "f" fullThread).thread = fullThread :=
  C8_tag_ceiling.1 "f" fullThread (by decide)

/-- C9: the archived pagination performs no more fetches than the upstream
has responses; a page reporting no further pages, a page with zero items,
and a failing fetch each stop the loop after that single fetch (the failure
stops pagination without failing the search); in particular a forum with
zero archived threads costs exactly one page fetch. -/
theorem C9_pagination_termination :
    (∀ pages, (fetchArchivedLoop pages).2 ≤ pages.length) ∧
    (∀ rest, fetchArchivedLoop (some ⟨[], false⟩ :: rest) = ([], 1)) ∧
    (∀ (p : ArchivedPage) rest, p.hasMore = false ∨ p.threads = [] →
      fetchArchivedLoop (some p :: rest) = (p.threads, 1)) ∧
    (∀ rest, fetchArchivedLoop (none :: rest) = ([], 1)) := by
  refine ⟨?_, ?_, ?_, ?_⟩
  · intro pages
    induction pages with
    | nil => simp [fetchArchivedLoop]
    | cons pg rest ih =>
      cases pg with
      | none => simp [fetchArchivedLoop]
      | some p =>
        unfold fetchArchivedLoop
        by_cases hcont : (p.hasMore && !p.threads.isEmpty) = true
        · simp only [hcont, if_true]
          simpa using Nat.succ_le_succ ih
        · simp only [hcont, if_false, Bool.false_eq_true]
          simp
  · intro rest
    rfl
  · intro p rest h
    unfold fetchArchivedLoop
    rcases h with h | h
    · simp [h]
    · simp [h]
  · intro rest
    rfl

/-- Witness for C9 at the zero-archived-threads page. -/
theorem C9_pagination_termination_witness :
    fetchArchivedLoop [some ⟨[], false⟩] = ([], 1) :=
  C9_pagination_termination.2.2.1 ⟨[], false⟩ [] (Or.inl rfl)

/-- C4 counterexample: redelivering the identical `issues.opened` payload
(whose label snapshot cannot contain the sync label the handler only adds
server-side afterwards) creates a second thread — the guard reads the
delivered snapshot, not live issue state. -/
theorem C4_counterexample_duplicate_thread :
    (handleIssueOpened true openedIssueSample
        (handleIssueOpened true openedIssueSample ⟨[], []⟩)).createdThreadTitles.length = 2 ∧
      (2 : Nat) ≠ 1 :=
  ⟨rfl, by decide⟩

/-- C4 amended: the sync-marker-label check guards exactly the payloads
whose issue snapshot already carries the sync label (then the handler is a
no-op); an identical redelivered payload without the label creates one
thread per delivery, so two deliveries create two threads. -/
theorem C4_amended_idempotence_guard (issue : GhIssue) (w : OpenedWorld) :
    (hasSyncLabel issue = true → handleIssueOpened true issue w = w) ∧
    (hasSyncLabel issue = false →
      (handleIssueOpened true issue
          (handleIssueOpened true issue w)).createdThreadTitles.length =
        w.createdThreadTitles.length + 2) := by
  constructor
  · intro h
    simp [handleIssueOpened, h]
  · intro h
    simp [handleIssueOpened, h]

/-- Witness for the amended C4 at a labelless opened payload. -/
theorem C4_amended_idempotence_guard_witness :
    (handleIssueOpened true openedIssueSample
        (handleIssueOpened true openedIssueSample ⟨[], []⟩)).createdThreadTitles.length =
      (⟨[], []⟩ : OpenedWorld).createdThreadTitles.length + 2 :=
  (C4_amended_idempotence_guard openedIssueSample ⟨[], []⟩).2 rfl

/-- Witness for the amended C5 at a concrete legacy marker. -/
theorem C5_invariant_owner_repo_paired_witness :
    0 ≤ (⟨12, none, none⟩ : SyncedIssueRef).number ∧
      ((⟨12, none, none⟩ : SyncedIssueRef).owner = none ↔
        (⟨12, none, none⟩ : SyncedIssueRef).repo = none) :=
  C5_invariant_owner_repo_paired [("`synced with issue #12`" : String)] ⟨12, none, none⟩ (by
    rw [show getSyncedIssueInfo [("`synced with issue #12`" : String)]
        = [⟨12, none, none⟩] from rfl]
    exact List.mem_singleton.mpr rfl)

